import Mathlib

/-!
Verification of the MCP plugin registry and its JSON-RPC transport client
(`backend/app/mcp/registry.py` and `backend/app/mcp/http_client.py`), as a
shallow embedding in Lean 4: dictionaries become association lists in
insertion order (Python dicts and `OrderedDict` preserve insertion order),
JSON values become an inductive type, exceptions become `Except` /
explicit outcome types, and the network is an explicit function parameter.
-/

namespace MCP

/-! ## String helpers (structural-recursion models of the Python string
operations used by the source: `str.strip`, `str.split('\n')`,
`str.startswith`, slicing, `in`-containment, `str.rstrip('/')`). -/

/-- Model of Python `str.strip()` over the common whitespace set. -/
def strTrim (s : String) : String :=
  String.mk (((s.data.dropWhile Char.isWhitespace).reverse.dropWhile
    Char.isWhitespace).reverse)

/-- Split a character list on a separator character; models Python
`str.split(sep)` for a single-character separator. -/
def splitCharAux (sep : Char) : List Char → List Char → List String
  | [], acc => [String.mk acc.reverse]
  | c :: cs, acc =>
    if c == sep then String.mk acc.reverse :: splitCharAux sep cs []
    else splitCharAux sep cs (c :: acc)

/-- Model of Python `str.split('\n')`. -/
def splitNewline (s : String) : List String :=
  splitCharAux '\n' s.data []

/-- Model of Python `str.startswith(pre)`. -/
def strStartsWith (s pre : String) : Bool :=
  pre.data.isPrefixOf s.data

/-- Model of Python slicing `s[n:]` (drop the first `n` characters). -/
def strDropChars (s : String) (n : Nat) : String :=
  String.mk (s.data.drop n)

/-- Substring containment on character lists. -/
def listContainsSub (pat : List Char) : List Char → Bool
  | [] => pat.isEmpty
  | c :: rest => pat.isPrefixOf (c :: rest) || listContainsSub pat rest

/-- Model of Python `pat in s` substring containment. -/
def strContains (s pat : String) : Bool :=
  listContainsSub pat.data s.data

/-- Model of Python `str.rstrip('/')` used on the target URL. -/
def rstripSlashes (u : String) : String :=
  String.mk ((u.data.reverse.dropWhile (· == '/')).reverse)

/-! ## JSON values

`json.loads` / `response.json()` produce Python values; we model the JSON
universe as an inductive type.  Numbers are modelled as integers (every
numeric literal the claims exercise is integral). -/

/-- JSON values as produced by the (external) JSON parser. -/
inductive Json where
  | null : Json
  | bool (b : Bool) : Json
  | num (n : Int) : Json
  | str (s : String) : Json
  | arr (elems : List Json) : Json
  | obj (fields : List (String × Json)) : Json

/-- Python dict key lookup `fields[k]` / membership `k in fields` on a JSON
object's field list (keys are unique in a parsed JSON object). -/
def objGet (fields : List (String × Json)) (k : String) : Option Json :=
  (fields.find? (fun kv => kv.1 == k)).map (fun kv => kv.2)

/-- Python `d.get(k, default)` on a JSON object's field list. -/
def objGetD (fields : List (String × Json)) (k : String) (d : Json) : Json :=
  (objGet fields k).getD d

/-- Field lookup on an arbitrary JSON value: `some` only for objects,
mirroring Python `isinstance(x, dict) and k in x` guards. -/
def jsonField : Json → String → Option Json
  | .obj fields, k => objGet fields k
  | _, _ => none

/-! ## Transport client (`http_client.py`) -/

/-- The distinct `MCPError` raise sites of `_call_jsonrpc` /
`_parse_sse_response`, each constructor carrying what the source
interpolates into the error message. -/
inductive MCPErrorKind where
  /-- line 114: empty response body. -/
  | emptyResponse
  /-- line 126: plain body is not valid JSON. -/
  | jsonParseFailed
  /-- line 180: SSE body has no `data:` lines. -/
  | sseNoData
  /-- line 189: concatenated SSE data is not valid JSON. -/
  | sseInvalidJson
  /-- line 134: JSON-RPC `error` field, carrying `error.get("code", -1)`
  and `error.get("message", "Unknown error")`. -/
  | rpcError (code : Json) (message : Json)
  /-- line 137: response lacks a `result` field. -/
  | missingResult
  /-- the `error` field is present but not a dict: `error.get` raises
  `AttributeError`, caught by the generic handler at line 149. -/
  | attributeError

/-- SSE detection condition of `_call_jsonrpc` line 117:
`'text/event-stream' in content_type or response_text.startswith('event:')`. -/
def sseDetect (contentType responseText : String) : Bool :=
  strContains contentType "text/event-stream" || strStartsWith responseText "event:"

/-- The `data:` line scan of `_parse_sse_response` (lines 169-177): strip the
body, split on newlines, strip each line, keep lines prefixed `data:`, take
the text after the prefix (`line[5:].strip()`). -/
def parseSseData (sseText : String) : List String :=
  ((splitNewline (strTrim sseText)).map strTrim).filterMap
    (fun l => if strStartsWith l "data:" then some (strTrim (strDropChars l 5)) else none)

/-- `_parse_sse_response` (lines 153-189), with the external `json.loads`
passed as `parseJson`. -/
def parseSseResponse (parseJson : String → Option Json) (sseText : String) :
    Except MCPErrorKind Json :=
  let dataLines := parseSseData sseText
  if dataLines.isEmpty then .error .sseNoData
  else
    match parseJson (String.join dataLines) with
    | some j => .ok j
    | none => .error .sseInvalidJson

/-- The JSON-RPC envelope checks of `_call_jsonrpc` lines 129-139: an
`error` field fails with the remote code and message, a missing `result`
field fails, otherwise the `result` value is returned. -/
def checkJsonRpcEnvelope (data : Json) : Except MCPErrorKind Json :=
  match jsonField data "error" with
  | some (.obj efields) =>
      .error (.rpcError (objGetD efields "code" (.num (-1)))
                        (objGetD efields "message" (.str "Unknown error")))
  | some _ => .error .attributeError
  | none =>
    match jsonField data "result" with
    | some r => .ok r
    | none => .error .missingResult

/-- Response processing of `_call_jsonrpc` (lines 109-139), starting from the
received 2xx response's content type and body text.  `parseJson` stands for
the external JSON parser used by both `response.json()` and `json.loads`. -/
def processJsonRpcResponse (parseJson : String → Option Json)
    (contentType responseText : String) : Except MCPErrorKind Json :=
  if responseText == "" || strTrim responseText == "" then .error .emptyResponse
  else
    let parsed : Except MCPErrorKind Json :=
      if sseDetect contentType responseText then
        parseSseResponse parseJson responseText
      else
        match parseJson responseText with
        | some d => .ok d
        | none => .error .jsonParseFailed
    match parsed with
    | .ok data => checkJsonRpcEnvelope data
    | .error e => .error e

/-! ### Client construction (`HTTPMCPClient.__init__`, lines 18-63) -/

/-- Python dict membership `k in m` on a string map. -/
def dictContains (m : List (String × String)) (k : String) : Bool :=
  m.any (fun kv => kv.1 == k)

/-- Python dict assignment `m[k] = v`: update in place if the key exists,
append otherwise (insertion order preserved). -/
def dictSet (m : List (String × String)) (k v : String) : List (String × String) :=
  if dictContains m k then
    m.map (fun kv => if kv.1 == k then (k, v) else kv)
  else m ++ [(k, v)]

/-- Python dict lookup `m.get(k)` on a string map. -/
def dictGet (m : List (String × String)) (k : String) : Option String :=
  (m.find? (fun kv => kv.1 == k)).map (fun kv => kv.2)

/-- The header defaulting of `__init__` lines 43-52, applied to the header
map the client holds: insert `Accept` then `Content-Type` when absent, then
synthesize `Authorization` from `env['API_KEY']` when present. -/
def initHeaderMap (headers env : List (String × String)) : List (String × String) :=
  let h1 := if dictContains headers "Accept" then headers
            else dictSet headers "Accept" "application/json, text/event-stream"
  let h2 := if dictContains h1 "Content-Type" then h1
            else dictSet h1 "Content-Type" "application/json"
  match dictGet env "API_KEY" with
  | some key => dictSet h2 "Authorization" ("Bearer " ++ key)
  | none => h2

/-- The state of the transport client after `__init__`. -/
structure HTTPMCPClient where
  url : String
  headers : List (String × String)
  env : List (String × String)
  timeout : Json
  /-- `_owns_client : http_client is None` (line 55). -/
  ownsClient : Bool

/-- `HTTPMCPClient.__init__` (lines 18-63).  `httpClientSupplied` records
whether the optional shared `http_client` argument was given. -/
def HTTPMCPClient.init (url : String) (headers env : List (String × String))
    (timeout : Json) (httpClientSupplied : Bool) : HTTPMCPClient :=
  { url := rstripSlashes url
    headers := initHeaderMap headers env
    env := env
    timeout := timeout
    ownsClient := !httpClientSupplied }

/-- Observable state of the HTTP transport (`httpx.AsyncClient`) a client
holds: whether `aclose()` has been called on it. -/
structure TransportState where
  closed : Bool

/-- `HTTPMCPClient.close` (lines 342-345): `aclose` the held transport only
when `_owns_client` (the `and self.client` conjunct is always truthy: the
attribute is set in `__init__` and never cleared). -/
def HTTPMCPClient.close (c : HTTPMCPClient) (t : TransportState) : TransportState :=
  if c.ownsClient then { closed := true } else t

/-! ### `call_tool` result unwrapping (lines 207-249) -/

/-- The result post-processing of `HTTPMCPClient.call_tool` lines 234-245. -/
def unwrapToolResult (result : Json) : Json :=
  match result with
  | .obj fields =>
    match objGet fields "content" with
    | some content =>
      match content with
      | .arr (first :: _) =>
        (match first with
         | .obj ffields =>
           (match objGet ffields "text" with
            | some t => t
            | none => first)
         | _ => first)
      | _ => content
    | none => result
  | _ => result

/-- `HTTPMCPClient.call_tool` outcome given the `_call_jsonrpc` outcome: a
successful RPC result is unwrapped, an error is logged and re-raised. -/
def clientCallTool (rpc : Except MCPErrorKind Json) : Except MCPErrorKind Json :=
  match rpc with
  | .ok result => .ok (unwrapToolResult result)
  | .error e => .error e

/-! ## Plugin registry (`registry.py`)

The `OrderedDict` `_clients` becomes a list of entries in insertion/recency
order, oldest first (Python's `next(iter(...))` yields the head,
`move_to_end` moves an entry to the tail).  `time.time()` stamps are an
abstract clock passed in as `now`.  The per-tenant `asyncio.Lock`s serialize
the operations we model as sequential state transformers. -/

/-- One `_clients` entry: `plugin_id -> (client, last_access_time)`. -/
structure RegEntry where
  pid : String
  client : HTTPMCPClient
  lastAccess : Nat

/-- Registry state: the ordered client map and `_max_clients`. -/
structure RegistryState where
  clients : List RegEntry
  maxClients : Nat

/-- A fresh registry (`__init__`; `max_clients` defaults to 1000). -/
def RegistryState.init (maxClients : Nat := 1000) : RegistryState :=
  { clients := [], maxClients := maxClients }

/-- The keys of the ordered client map. -/
def keysOf (l : List RegEntry) : List String :=
  l.map (fun e => e.pid)

/-- Python `plugin_id in self._clients`. -/
def hasEntry (l : List RegEntry) (k : String) : Bool :=
  l.any (fun e => e.pid == k)

/-- Python `del self._clients[plugin_id]` (keys are unique, so filtering is
deletion of the one entry). -/
def removeEntry (l : List RegEntry) (k : String) : List RegEntry :=
  l.filter (fun e => e.pid != k)

/-- Python `self._clients[plugin_id] = (client, t)`: in-place update when
the key exists, append otherwise. -/
def odSetEntry (l : List RegEntry) (k : String) (c : HTTPMCPClient) (t : Nat) :
    List RegEntry :=
  if hasEntry l k then
    l.map (fun e => if e.pid == k then ⟨k, c, t⟩ else e)
  else l ++ [⟨k, c, t⟩]

/-- Python `OrderedDict.move_to_end(key)` (the only call site has the key
present). -/
def moveToEnd (l : List RegEntry) (k : String) : List RegEntry :=
  match l.find? (fun e => e.pid == k) with
  | some e => removeEntry l k ++ [e]
  | none => l

/-- `_unload_plugin_unsafe` (lines 191-201): look up the entry, `close()` the
client — any exception from close is caught and logged (`closeFails` tracks
whether it raised; the entry is deleted on both paths) — then delete it. -/
def unloadPluginUnsafe (closeFails : Bool) (s : RegistryState) (pid : String) :
    RegistryState :=
  if hasEntry s.clients pid then
    match closeFails with
    | true => { s with clients := removeEntry s.clients pid }
    | false => { s with clients := removeEntry s.clients pid }
  else s

/-- `unload_plugin` (lines 177-189): build `plugin_id` and unload under the
tenant lock. -/
def unloadPlugin (closeFails : Bool) (s : RegistryState) (userId pluginName : String) :
    RegistryState :=
  unloadPluginUnsafe closeFails s (userId ++ ":" ++ pluginName)

/-- `_touch_client` (lines 106-117): refresh the entry's timestamp and move
it to the tail (most-recently-used position). -/
def touchClient (s : RegistryState) (pid : String) (now : Nat) : RegistryState :=
  match s.clients.find? (fun e => e.pid == pid) with
  | some e =>
    { s with clients := moveToEnd (odSetEntry s.clients pid e.client now) pid }
  | none => s

/-- `_evict_lru_client` (lines 119-125): at or above `_max_clients`, unload
the oldest entry.  `none` models the `StopIteration` that
`next(iter(self._clients))` raises on an empty map (it propagates to
`load_plugin`'s generic `except`). -/
def evictLruClient (closeFails : Bool) (s : RegistryState) : Option RegistryState :=
  if s.maxClients ≤ s.clients.length then
    match s.clients with
    | [] => none
    | e :: _ => some (unloadPluginUnsafe closeFails s e.pid)
  else some s

/-- Modelled from the spec: the Plugin Descriptor record
(`app/models/mcp_plugin.py` is not under `src/`; spec section 3 and the
fields `registry.py` reads — tenant, name, transport kind, target URL,
header map, env map, config map).  `Option` on the maps and on `server_url`
and `config` models Python `None`. -/
structure MCPPlugin where
  user_id : String
  plugin_name : String
  plugin_type : String
  server_url : Option String
  headers : Option (List (String × String))
  env : Option (List (String × String))
  config : Option (List (String × Json))

/-- `f"{plugin.user_id}:{plugin.plugin_name}"`. -/
def pluginId (p : MCPPlugin) : String :=
  p.user_id ++ ":" ++ p.plugin_name

/-- Python `x or {}` on an optional map (`None` and the empty map are both
falsy and yield a fresh empty dict). -/
def orEmptyMap (m : Option (List (String × String))) : List (String × String) :=
  match m with
  | none => []
  | some l => l

/-- `plugin.config.get('timeout', 60.0) if plugin.config else 60.0`
(line 161; the 60.0 default is modelled as the integer 60). -/
def configTimeout (config : Option (List (String × Json))) : Json :=
  match config with
  | none => .num 60
  | some [] => .num 60
  | some cfg => objGetD cfg "timeout" (.num 60)

/-- `if not plugin.server_url` (line 152): `None` or the empty string. -/
def serverUrlMissing (p : MCPPlugin) : Bool :=
  match p.server_url with
  | none => true
  | some u => u == ""

/-- The client `load_plugin` constructs at lines 157-163: the shared pooled
transport is passed in, so `http_client` is supplied. -/
def loadedClient (p : MCPPlugin) : HTTPMCPClient :=
  HTTPMCPClient.init ((p.server_url).getD "") (orEmptyMap p.headers)
    (orEmptyMap p.env) (configTimeout p.config) true

/-- `load_plugin` (lines 127-175) under the tenant lock: unload an existing
entry for the key, run LRU eviction, validate the transport kind and URL,
construct and insert the client.  `constructRaises` tracks whether client
construction raised (the generic `except` converts any exception to a
`False` return, keeping the state mutations already made). -/
def loadPlugin (closeFails constructRaises : Bool) (s : RegistryState)
    (p : MCPPlugin) (now : Nat) : Bool × RegistryState :=
  let pid := pluginId p
  let s1 := if hasEntry s.clients pid then unloadPluginUnsafe closeFails s pid else s
  match evictLruClient closeFails s1 with
  | none => (false, s1)
  | some s2 =>
    if p.plugin_type == "http" then
      if serverUrlMissing p then (false, s2)
      else if constructRaises then (false, s2)
      else
        (true, { s2 with clients := odSetEntry s2.clients pid (loadedClient p) now })
    else (false, s2)

/-- `get_client` (lines 216-233): look the key up; on a hit, refresh its
access time (LRU touch) and return the client; `None` otherwise. -/
def getClient (s : RegistryState) (userId pluginName : String) (now : Nat) :
    Option HTTPMCPClient × RegistryState :=
  let pid := userId ++ ":" ++ pluginName
  match s.clients.find? (fun e => e.pid == pid) with
  | some e => (some e.client, touchClient s pid now)
  | none => (none, s)

/-- Outcome of the registry operations that resolve a client first:
`notLoaded` models the `ValueError(f"插件未加载: {plugin_name}")` raise,
`delegated` the value or re-raised error of the delegated client call. -/
inductive RegOutcome (α : Type) where
  | notLoaded (pluginName : String)
  | delegated (v : α)

/-- `call_tool` (lines 235-270): resolve via `get_client`, raise when absent,
otherwise delegate to the client's `call_tool` (the network call, passed in
as `invoke`) and propagate its result or error unchanged. -/
def registryCallTool (invoke : HTTPMCPClient → String → Json → Except MCPErrorKind Json)
    (s : RegistryState) (userId pluginName toolName : String) (args : Json) (now : Nat) :
    RegOutcome (Except MCPErrorKind Json) × RegistryState :=
  match getClient s userId pluginName now with
  | (none, s') => (.notLoaded pluginName, s')
  | (some c, s') => (.delegated (invoke c toolName args), s')

/-- `get_plugin_tools` (lines 272-297): same resolution discipline,
delegating to the client's `list_tools`. -/
def registryGetPluginTools
    (listToolsFn : HTTPMCPClient → Except MCPErrorKind (List Json))
    (s : RegistryState) (userId pluginName : String) (now : Nat) :
    RegOutcome (Except MCPErrorKind (List Json)) × RegistryState :=
  match getClient s userId pluginName now with
  | (none, s') => (.notLoaded pluginName, s')
  | (some c, s') => (.delegated (listToolsFn c), s')

/-- `test_plugin` (lines 299-319): same resolution discipline, delegating to
the client's `test_connection` (which never raises: it returns a result
dict in all cases). -/
def registryTestPlugin (testConnectionFn : HTTPMCPClient → Json)
    (s : RegistryState) (userId pluginName : String) (now : Nat) :
    RegOutcome Json × RegistryState :=
  match getClient s userId pluginName now with
  | (none, s') => (.notLoaded pluginName, s')
  | (some c, s') => (.delegated (testConnectionFn c), s')

/-- One `load_plugin` call of a sequence: the descriptor, the clock reading,
and whether `close()` / client construction raised during the call. -/
structure LoadCall where
  plugin : MCPPlugin
  now : Nat
  closeFails : Bool
  constructRaises : Bool

/-- Run a sequence of `load_plugin` calls. -/
def runLoads (s : RegistryState) (calls : List LoadCall) : RegistryState :=
  calls.foldl (fun st c => (loadPlugin c.closeFails c.constructRaises st c.plugin c.now).2) s

/-- The entries of a state holding a given key. -/
def entriesFor (s : RegistryState) (k : String) : List RegEntry :=
  s.clients.filter (fun e => e.pid == k)

/-- Well-formedness of the ordered map: keys are unique (`OrderedDict`
guarantees this structurally). -/
abbrev WF (s : RegistryState) : Prop :=
  (keysOf s.clients).Nodup

/-! ### Descriptor aliasing during a load (`__init__` lines 36-52,
`load_plugin` lines 157-163)

`load_plugin` passes `plugin.headers or {}` and `plugin.env or {}` to the
client constructor; a non-empty map is passed by reference, so
`self.headers = headers or {}` aliases the descriptor's own dict and the
header defaulting of `__init__` writes into it.  `self.env` is aliased the
same way but `__init__` never writes to it. -/

/-- The descriptor's (headers, env) maps after a load that reaches client
construction. -/
def descriptorMapsAfterLoad (descHeaders descEnv : Option (List (String × String))) :
    Option (List (String × String)) × Option (List (String × String)) :=
  (match descHeaders with
   | none => none
   | some [] => some []
   | some hs => some (initHeaderMap hs (orEmptyMap descEnv)),
   descEnv)

/-! ## Claims about the transport client -/

/-- Claim C9: a client constructed with a caller-supplied shared HTTP
transport never closes it on `close()` (the transport state is unchanged,
so it remains usable); a client constructed without one owns its transport
and `close()` closes it. -/
theorem claim_C9_close_ownership :
    ∀ (url : String) (hdrs env : List (String × String)) (tmo : Json),
      ((HTTPMCPClient.init url hdrs env tmo true).ownsClient = false
        ∧ ∀ t : TransportState, (HTTPMCPClient.init url hdrs env tmo true).close t = t)
      ∧ ((HTTPMCPClient.init url hdrs env tmo false).ownsClient = true
        ∧ ∀ t : TransportState,
            (HTTPMCPClient.init url hdrs env tmo false).close t = { closed := true }) := by
  intro url hdrs env tmo
  exact ⟨⟨rfl, fun t => rfl⟩, ⟨rfl, fun t => rfl⟩⟩

/-- Claim C10 counterexample: loading a descriptor whose non-empty header
map lacks `Accept`/`Content-Type` mutates the descriptor's header map in
place (`self.headers = headers or {}` aliases the caller's dict), so the
descriptor is not left unchanged. -/
theorem claim_C10_counterexample :
    (descriptorMapsAfterLoad (some [("X-Custom", "a")]) none).1
      ≠ some [("X-Custom", "a")] := by
  decide

/-- Claim C10 (amended): the descriptor's env map is never modified by a
load; the header map is left unchanged when it is absent or empty (the
client then works on a fresh dict), and otherwise the client performs the
required-header defaulting directly on the descriptor's own header map. -/
theorem claim_C10_descriptor_maps :
    (∀ e, descriptorMapsAfterLoad none e = (none, e))
    ∧ (∀ e, descriptorMapsAfterLoad (some []) e = (some [], e))
    ∧ (∀ hs e, hs ≠ [] →
        descriptorMapsAfterLoad (some hs) e
          = (some (initHeaderMap hs (orEmptyMap e)), e)) := by
  refine ⟨fun e => rfl, fun e => rfl, fun hs e h => ?_⟩
  cases hs with
  | nil => exact absurd rfl h
  | cons a t => rfl

/-- Claim C10 witness: a concrete non-empty header map together with an
`API_KEY` env entry. -/
theorem claim_C10_witness :
    ([("X-Custom", "a")] : List (String × String)) ≠ []
    ∧ descriptorMapsAfterLoad (some [("X-Custom", "a")]) (some [("API_KEY", "k")])
      = (some (initHeaderMap [("X-Custom", "a")] (orEmptyMap (some [("API_KEY", "k")]))),
         some [("API_KEY", "k")]) :=
  ⟨by decide, claim_C10_descriptor_maps.2.2 _ _ (by decide)⟩

/-- Claim C5: `call_tool` result unwrapping — a `content` array whose first
element is an object with a `text` field yields that text; a non-empty
`content` array otherwise yields its first element; a `content` field of
any other shape is returned as-is; any other result is returned itself. -/
theorem claim_C5_call_tool_unwrapping :
    (∀ fields ffields rest t,
        objGet fields "content" = some (.arr (.obj ffields :: rest)) →
        objGet ffields "text" = some t →
        clientCallTool (.ok (.obj fields)) = .ok t)
    ∧ (∀ fields ffields rest,
        objGet fields "content" = some (.arr (.obj ffields :: rest)) →
        objGet ffields "text" = none →
        clientCallTool (.ok (.obj fields)) = .ok (.obj ffields))
    ∧ (∀ fields first rest,
        objGet fields "content" = some (.arr (first :: rest)) →
        (∀ ff, first ≠ .obj ff) →
        clientCallTool (.ok (.obj fields)) = .ok first)
    ∧ (∀ fields content,
        objGet fields "content" = some content →
        (∀ hd tl, content ≠ .arr (hd :: tl)) →
        clientCallTool (.ok (.obj fields)) = .ok content)
    ∧ (∀ fields, objGet fields "content" = none →
        clientCallTool (.ok (.obj fields)) = .ok (.obj fields))
    ∧ (∀ r, (∀ f, r ≠ .obj f) → clientCallTool (.ok r) = .ok r) := by
  refine ⟨?_, ?_, ?_, ?_, ?_, ?_⟩
  · intro fields ffields rest t h1 h2
    simp [clientCallTool, unwrapToolResult, h1, h2]
  · intro fields ffields rest h1 h2
    simp [clientCallTool, unwrapToolResult, h1, h2]
  · intro fields first rest h1 h2
    cases first with
    | obj ff => exact absurd rfl (h2 ff)
    | null => simp [clientCallTool, unwrapToolResult, h1]
    | bool b => simp [clientCallTool, unwrapToolResult, h1]
    | num n => simp [clientCallTool, unwrapToolResult, h1]
    | str s => simp [clientCallTool, unwrapToolResult, h1]
    | arr xs => simp [clientCallTool, unwrapToolResult, h1]
  · intro fields content h1 h2
    cases content with
    | arr xs =>
      cases xs with
      | nil => simp [clientCallTool, unwrapToolResult, h1]
      | cons hd tl => exact absurd rfl (h2 hd tl)
    | null => simp [clientCallTool, unwrapToolResult, h1]
    | bool b => simp [clientCallTool, unwrapToolResult, h1]
    | num n => simp [clientCallTool, unwrapToolResult, h1]
    | str s => simp [clientCallTool, unwrapToolResult, h1]
    | obj fs => simp [clientCallTool, unwrapToolResult, h1]
  · intro fields h1
    simp [clientCallTool, unwrapToolResult, h1]
  · intro r h
    cases r with
    | obj f => exact absurd rfl (h f)
    | null => rfl
    | bool b => rfl
    | num n => rfl
    | str s => rfl
    | arr xs => rfl

/-- Claim C5 witness: the claim's two concrete results — a text content
element yields the string `hello`, an image content element (no `text` key)
is returned unchanged. -/
theorem claim_C5_witness :
    objGet [("type", Json.str "text"), ("text", Json.str "hello")] "text"
        = some (Json.str "hello")
    ∧ clientCallTool (.ok (Json.obj [("content",
        Json.arr [Json.obj [("type", Json.str "text"), ("text", Json.str "hello")]])]))
        = .ok (Json.str "hello")
    ∧ clientCallTool (.ok (Json.obj [("content",
        Json.arr [Json.obj [("type", Json.str "image"), ("data", Json.str "abc")]])]))
        = .ok (Json.obj [("type", Json.str "image"), ("data", Json.str "abc")]) :=
  ⟨rfl,
   claim_C5_call_tool_unwrapping.1 _ _ [] _ rfl rfl,
   claim_C5_call_tool_unwrapping.2.1 _ _ [] rfl rfl⟩

/-- Claim C3: response handling of `call` — an empty body fails with the
empty-response protocol error; a parsed object with an `error` field fails
carrying the remote code and message (with the source's defaults when a key
is absent); an object lacking `result` fails with the missing-result
protocol error; otherwise exactly the `result` value is returned. -/
theorem claim_C3_response_envelope :
    (∀ pj ct body, strTrim body = "" →
        processJsonRpcResponse pj ct body = .error .emptyResponse)
    ∧ (∀ pj ct body data efields, sseDetect ct body = false → strTrim body ≠ "" →
        pj body = some data → jsonField data "error" = some (.obj efields) →
        processJsonRpcResponse pj ct body
          = .error (.rpcError (objGetD efields "code" (.num (-1)))
                              (objGetD efields "message" (.str "Unknown error"))))
    ∧ (∀ pj ct body data, sseDetect ct body = false → strTrim body ≠ "" →
        pj body = some data → jsonField data "error" = none →
        jsonField data "result" = none →
        processJsonRpcResponse pj ct body = .error .missingResult)
    ∧ (∀ pj ct body data r, sseDetect ct body = false → strTrim body ≠ "" →
        pj body = some data → jsonField data "error" = none →
        jsonField data "result" = some r →
        processJsonRpcResponse pj ct body = .ok r) := by
  refine ⟨?_, ?_, ?_, ?_⟩
  · intro pj ct body h
    simp [processJsonRpcResponse, h]
  · intro pj ct body data efields hsse hne hpj herr
    have hb : body ≠ "" := by intro h'; subst h'; exact hne rfl
    simp [processJsonRpcResponse, hb, hne, hsse, hpj, checkJsonRpcEnvelope, herr]
  · intro pj ct body data hsse hne hpj herr hres
    have hb : body ≠ "" := by intro h'; subst h'; exact hne rfl
    simp [processJsonRpcResponse, hb, hne, hsse, hpj, checkJsonRpcEnvelope, herr, hres]
  · intro pj ct body data r hsse hne hpj herr hres
    have hb : body ≠ "" := by intro h'; subst h'; exact hne rfl
    simp [processJsonRpcResponse, hb, hne, hsse, hpj, checkJsonRpcEnvelope, herr, hres]

/-- Claim C3 witness: the claim's concrete error body — a `-32601` error
response fails carrying code `-32601` and message `method not found` (the
JSON parser parameter maps the raw body to its parsed object). -/
theorem claim_C3_witness :
    sseDetect "application/json"
        "\x7b\"jsonrpc\":\"2.0\",\"id\":1,\"error\":\x7b\"code\":-32601,\"message\":\"method not found\"\x7d\x7d"
        = false
    ∧ processJsonRpcResponse
        (fun s =>
          if s == "\x7b\"jsonrpc\":\"2.0\",\"id\":1,\"error\":\x7b\"code\":-32601,\"message\":\"method not found\"\x7d\x7d"
          then some (Json.obj [("jsonrpc", Json.str "2.0"), ("id", Json.num 1),
            ("error", Json.obj [("code", Json.num (-32601)),
                                ("message", Json.str "method not found")])])
          else none)
        "application/json"
        "\x7b\"jsonrpc\":\"2.0\",\"id\":1,\"error\":\x7b\"code\":-32601,\"message\":\"method not found\"\x7d\x7d"
      = .error (.rpcError (objGetD [("code", Json.num (-32601)),
                                    ("message", Json.str "method not found")] "code" (.num (-1)))
                          (objGetD [("code", Json.num (-32601)),
                                    ("message", Json.str "method not found")] "message"
                                   (.str "Unknown error"))) :=
  ⟨rfl,
   claim_C3_response_envelope.2.1 _ _ _ _ _ rfl (by decide) rfl rfl⟩

/-- Claim C4: SSE responses — when detection triggers (event-stream content
type or an `event:` body prefix) and the prefix-stripped concatenation of
the `data:` lines equals a plain JSON body that parses, the response is
processed identically to that plain body; an SSE body with no `data:`
lines, or whose concatenation does not parse, fails with the corresponding
protocol error. -/
theorem claim_C4_sse_equivalence :
    (∀ pj ctS S ctT T data, sseDetect ctS S = true → sseDetect ctT T = false →
        strTrim S ≠ "" → strTrim T ≠ "" →
        String.join (parseSseData S) = T → pj T = some data →
        processJsonRpcResponse pj ctS S = processJsonRpcResponse pj ctT T)
    ∧ (∀ pj ct S, sseDetect ct S = true → strTrim S ≠ "" → parseSseData S = [] →
        processJsonRpcResponse pj ct S = .error .sseNoData)
    ∧ (∀ pj ct S, sseDetect ct S = true → strTrim S ≠ "" → parseSseData S ≠ [] →
        pj (String.join (parseSseData S)) = none →
        processJsonRpcResponse pj ct S = .error .sseInvalidJson) := by
  refine ⟨?_, ?_, ?_⟩
  · intro pj ctS S ctT T data hS hT hSne hTne hjoin hpj
    have hS0 : S ≠ "" := by intro h'; subst h'; exact hSne rfl
    have hT0 : T ≠ "" := by intro h'; subst h'; exact hTne rfl
    have hlines : parseSseData S ≠ [] := by
      intro h'
      rw [h'] at hjoin
      exact hT0 hjoin.symm
    cases hd : parseSseData S with
    | nil => exact absurd hd hlines
    | cons a t =>
      rw [hd] at hjoin
      simp [processJsonRpcResponse, hS0, hSne, hT0, hTne, hS, hT,
        parseSseResponse, hd, hjoin, hpj]
  · intro pj ct S hS hSne hd
    have hS0 : S ≠ "" := by intro h'; subst h'; exact hSne rfl
    simp [processJsonRpcResponse, hS0, hSne, hS, parseSseResponse, hd]
  · intro pj ct S hS hSne hlines hpj
    have hS0 : S ≠ "" := by intro h'; subst h'; exact hSne rfl
    cases hd : parseSseData S with
    | nil => exact absurd hd hlines
    | cons a t =>
      rw [hd] at hpj
      simp [processJsonRpcResponse, hS0, hSne, hS, parseSseResponse, hd, hpj]

/-- Claim C4 witness: the claim's SSE body carrying the `tools/list` result
payload is processed identically to the plain JSON body, and both hand back
the `result` value. -/
theorem claim_C4_witness :
    sseDetect "text/event-stream" "event: message\ndata: \x7b\"jsonrpc\":\"2.0\",\"id\":1,\"result\":\x7b\"tools\":[]\x7d\x7d" = true
    ∧ String.join (parseSseData
        "event: message\ndata: \x7b\"jsonrpc\":\"2.0\",\"id\":1,\"result\":\x7b\"tools\":[]\x7d\x7d")
        = "\x7b\"jsonrpc\":\"2.0\",\"id\":1,\"result\":\x7b\"tools\":[]\x7d\x7d"
    ∧ processJsonRpcResponse
        (fun s =>
          if s == "\x7b\"jsonrpc\":\"2.0\",\"id\":1,\"result\":\x7b\"tools\":[]\x7d\x7d"
          then some (Json.obj [("jsonrpc", Json.str "2.0"), ("id", Json.num 1),
            ("result", Json.obj [("tools", Json.arr [])])])
          else none)
        "text/event-stream"
        "event: message\ndata: \x7b\"jsonrpc\":\"2.0\",\"id\":1,\"result\":\x7b\"tools\":[]\x7d\x7d"
      = processJsonRpcResponse
        (fun s =>
          if s == "\x7b\"jsonrpc\":\"2.0\",\"id\":1,\"result\":\x7b\"tools\":[]\x7d\x7d"
          then some (Json.obj [("jsonrpc", Json.str "2.0"), ("id", Json.num 1),
            ("result", Json.obj [("tools", Json.arr [])])])
          else none)
        "application/json"
        "\x7b\"jsonrpc\":\"2.0\",\"id\":1,\"result\":\x7b\"tools\":[]\x7d\x7d" :=
  ⟨rfl, rfl,
   claim_C4_sse_equivalence.1 _ _ _ _ _ _ rfl rfl (by decide) (by decide) rfl rfl⟩

/-! ## Registry lemmas -/

theorem unloadPluginUnsafe_eq (cf : Bool) (s : RegistryState) (pid : String) :
    unloadPluginUnsafe cf s pid
      = if hasEntry s.clients pid then { s with clients := removeEntry s.clients pid }
        else s := by
  cases cf <;> simp [unloadPluginUnsafe]

theorem hasEntry_eq_true_iff {l : List RegEntry} {k : String} :
    hasEntry l k = true ↔ k ∈ keysOf l := by
  simp [hasEntry, keysOf, List.any_eq_true, List.mem_map]

theorem not_mem_keysOf_removeEntry (l : List RegEntry) (k : String) :
    k ∉ keysOf (removeEntry l k) := by
  intro h
  simp only [keysOf, removeEntry, List.mem_map] at h
  obtain ⟨e, he, hpid⟩ := h
  rw [List.mem_filter] at he
  have h2 := he.2
  rw [bne_iff_ne] at h2
  exact h2 hpid

theorem removeEntry_eq_self {l : List RegEntry} {k : String} (h : k ∉ keysOf l) :
    removeEntry l k = l := by
  apply List.filter_eq_self.mpr
  intro e he
  rw [bne_iff_ne]
  intro h'
  exact h (List.mem_map.mpr ⟨e, he, h'⟩)

theorem find?_removeEntry (l : List RegEntry) (k : String) :
    (removeEntry l k).find? (fun e => e.pid == k) = none := by
  rw [List.find?_eq_none]
  intro e he hbe
  simp only [removeEntry, List.mem_filter] at he
  have h2 := he.2
  rw [bne_iff_ne] at h2
  exact h2 (by rwa [beq_iff_eq] at hbe)

theorem find?_eq_none_of_not_mem {l : List RegEntry} {k : String} (h : k ∉ keysOf l) :
    l.find? (fun e => e.pid == k) = none := by
  rw [List.find?_eq_none]
  intro e he hbe
  exact h (List.mem_map.mpr ⟨e, he, by rwa [beq_iff_eq] at hbe⟩)

theorem keysOf_sublist {l l' : List RegEntry} (h : List.Sublist l' l) :
    List.Sublist (keysOf l') (keysOf l) := by
  unfold keysOf
  exact h.map (fun e => e.pid)

theorem unloadPluginUnsafe_sublist (cf : Bool) (s : RegistryState) (pid : String) :
    List.Sublist (unloadPluginUnsafe cf s pid).clients s.clients := by
  rw [unloadPluginUnsafe_eq]
  split
  · exact List.filter_sublist _
  · exact List.Sublist.refl _

theorem evictLruClient_sublist {cf : Bool} {s s2 : RegistryState}
    (h : evictLruClient cf s = some s2) : List.Sublist s2.clients s.clients := by
  unfold evictLruClient at h
  split at h
  · cases hc : s.clients with
    | nil => rw [hc] at h; exact absurd h (by simp)
    | cons e rest =>
      rw [hc] at h
      simp only [Option.some.injEq] at h
      subst h
      rw [← hc]
      exact unloadPluginUnsafe_sublist cf s e.pid
  · simp only [Option.some.injEq] at h
    subst h
    exact List.Sublist.refl _

/-- Claim C7: `unloadPlugin` on a live entry removes it from the mapping,
the removal is independent of whether the client's `close()` raised, and a
subsequent `getClient` for the same key returns absent. -/
theorem claim_C7_unload_always_removes :
    ∀ s userId pluginName cf now,
      (userId ++ ":" ++ pluginName) ∈ keysOf s.clients →
      ((userId ++ ":" ++ pluginName) ∉ keysOf (unloadPlugin cf s userId pluginName).clients)
      ∧ unloadPlugin true s userId pluginName = unloadPlugin false s userId pluginName
      ∧ getClient (unloadPlugin cf s userId pluginName) userId pluginName now
          = (none, unloadPlugin cf s userId pluginName) := by
  intro s userId pluginName cf now hmem
  have hhas : hasEntry s.clients (userId ++ ":" ++ pluginName) = true :=
    hasEntry_eq_true_iff.mpr hmem
  refine ⟨?_, ?_, ?_⟩
  · rw [unloadPlugin, unloadPluginUnsafe_eq, if_pos hhas]
    exact not_mem_keysOf_removeEntry _ _
  · rw [unloadPlugin, unloadPlugin, unloadPluginUnsafe_eq, unloadPluginUnsafe_eq]
  · rw [unloadPlugin, unloadPluginUnsafe_eq, if_pos hhas]
    simp [getClient, find?_removeEntry]

/-- Claim C7 witness: unloading a one-entry registry, with `close()`
raising, still removes the entry and makes `getClient` return absent. -/
theorem claim_C7_witness :
    ("u" ++ ":" ++ "p") ∈ keysOf [⟨"u:p", ⟨"h", [], [], .num 60, false⟩, 0⟩]
    ∧ (("u" ++ ":" ++ "p") ∉ keysOf
        (unloadPlugin true ⟨[⟨"u:p", ⟨"h", [], [], .num 60, false⟩, 0⟩], 1000⟩ "u" "p").clients)
    ∧ getClient (unloadPlugin true ⟨[⟨"u:p", ⟨"h", [], [], .num 60, false⟩, 0⟩], 1000⟩ "u" "p")
        "u" "p" 7
        = (none, unloadPlugin true ⟨[⟨"u:p", ⟨"h", [], [], .num 60, false⟩, 0⟩], 1000⟩ "u" "p") := by
  have h := claim_C7_unload_always_removes
    ⟨[⟨"u:p", ⟨"h", [], [], .num 60, false⟩, 0⟩], 1000⟩ "u" "p" true 7 (by decide)
  exact ⟨by decide, h.1, h.2.2⟩

/-- Claim C8: `callTool` — and `getPluginTools` and `testPlugin`, which use
the same resolution discipline — on a key with no live entry fail with the
plugin-not-loaded error for every possible delegate (so no network call is
made); with a live entry, `callTool` delegates to the client's `call_tool`
and hands its result or error back unchanged. -/
theorem claim_C8_resolution_discipline :
    (∀ invoke s userId pluginName toolName args now,
        (userId ++ ":" ++ pluginName) ∉ keysOf s.clients →
        registryCallTool invoke s userId pluginName toolName args now
          = (.notLoaded pluginName, s))
    ∧ (∀ listToolsFn s userId pluginName now,
        (userId ++ ":" ++ pluginName) ∉ keysOf s.clients →
        registryGetPluginTools listToolsFn s userId pluginName now
          = (.notLoaded pluginName, s))
    ∧ (∀ testConnectionFn s userId pluginName now,
        (userId ++ ":" ++ pluginName) ∉ keysOf s.clients →
        registryTestPlugin testConnectionFn s userId pluginName now
          = (.notLoaded pluginName, s))
    ∧ (∀ invoke s userId pluginName toolName args now e,
        s.clients.find? (fun x => x.pid == userId ++ ":" ++ pluginName) = some e →
        registryCallTool invoke s userId pluginName toolName args now
          = (.delegated (invoke e.client toolName args),
             touchClient s (userId ++ ":" ++ pluginName) now)) := by
  refine ⟨?_, ?_, ?_, ?_⟩
  · intro invoke s userId pluginName toolName args now hmem
    simp [registryCallTool, getClient, find?_eq_none_of_not_mem hmem]
  · intro listToolsFn s userId pluginName now hmem
    simp [registryGetPluginTools, getClient, find?_eq_none_of_not_mem hmem]
  · intro testConnectionFn s userId pluginName now hmem
    simp [registryTestPlugin, getClient, find?_eq_none_of_not_mem hmem]
  · intro invoke s userId pluginName toolName args now e hf
    simp [registryCallTool, getClient, hf]

/-- Claim C8 witness: on an empty registry every delegate yields the
not-loaded failure; on a one-entry registry the delegate's outcome is
passed through unchanged. -/
theorem claim_C8_witness :
    ("u" ++ ":" ++ "p") ∉ keysOf (RegistryState.init 1000).clients
    ∧ registryCallTool (fun _ _ _ => .error .missingResult) (RegistryState.init 1000)
        "u" "p" "t" .null 3 = (.notLoaded "p", RegistryState.init 1000)
    ∧ registryGetPluginTools (fun _ => .ok []) (RegistryState.init 1000) "u" "p" 3
        = (.notLoaded "p", RegistryState.init 1000)
    ∧ registryTestPlugin (fun _ => .null) (RegistryState.init 1000) "u" "p" 3
        = (.notLoaded "p", RegistryState.init 1000)
    ∧ registryCallTool (fun c t _ => .ok (.str (c.url ++ t)))
        ⟨[⟨"u:p", ⟨"h", [], [], .num 60, false⟩, 0⟩], 1000⟩ "u" "p" "t" .null 3
        = (.delegated (.ok (.str ("h" ++ "t"))),
           touchClient ⟨[⟨"u:p", ⟨"h", [], [], .num 60, false⟩, 0⟩], 1000⟩
             ("u" ++ ":" ++ "p") 3) :=
  ⟨by decide,
   claim_C8_resolution_discipline.1 _ _ _ _ _ _ _ (by decide),
   claim_C8_resolution_discipline.2.1 _ _ _ _ _ (by decide),
   claim_C8_resolution_discipline.2.2.1 _ _ _ _ _ (by decide),
   claim_C8_resolution_discipline.2.2.2 _ _ _ _ _ _ _
     ⟨"u:p", ⟨"h", [], [], .num 60, false⟩, 0⟩ rfl⟩

/-- Claim C6: a load with an unsupported transport kind, a missing target
URL, or a raising client construction returns `false` (the model is total,
so no exception escapes); and because LRU eviction precedes this
validation, at or above capacity such a failed load has still evicted the
least-recently-used (oldest) entry. -/
theorem claim_C6_failed_load_semantics :
    (∀ s p now cf cr, p.plugin_type ≠ "http" → (loadPlugin cf cr s p now).1 = false)
    ∧ (∀ s p now cf cr, serverUrlMissing p = true → (loadPlugin cf cr s p now).1 = false)
    ∧ (∀ s p now cf, (loadPlugin cf true s p now).1 = false)
    ∧ (∀ s p now cf cr e rest, WF s → s.clients = e :: rest →
        pluginId p ∉ keysOf s.clients → s.maxClients ≤ s.clients.length →
        (p.plugin_type ≠ "http" ∨ serverUrlMissing p = true ∨ cr = true) →
        loadPlugin cf cr s p now = (false, { s with clients := rest })) := by
  have hty_false : ∀ (p : MCPPlugin), p.plugin_type ≠ "http" →
      (p.plugin_type == "http") = false := by
    intro p h
    exact beq_eq_false_iff_ne.mpr h
  refine ⟨?_, ?_, ?_, ?_⟩
  · intro s p now cf cr h
    simp only [loadPlugin]
    split
    · rfl
    · rw [hty_false p h]
      simp
  · intro s p now cf cr h
    simp only [loadPlugin]
    split
    · rfl
    · rw [h]
      simp
  · intro s p now cf
    simp only [loadPlugin]
    split
    · rfl
    · simp
  · intro s p now cf cr e rest hWF hc hmem hcap hfail
    have hhasF : hasEntry s.clients (pluginId p) = false :=
      Bool.eq_false_iff.mpr (fun h => hmem (hasEntry_eq_true_iff.mp h))
    have hepid : e.pid ∉ keysOf rest := by
      have h2 : (keysOf s.clients).Nodup := hWF
      rw [hc] at h2
      simp only [keysOf, List.map_cons] at h2
      exact (List.nodup_cons.mp h2).1
    have hrem : removeEntry (e :: rest) e.pid = rest := by
      simp only [removeEntry, List.filter_cons, bne_self_eq_false, Bool.false_eq_true,
        if_false]
      exact removeEntry_eq_self hepid
    have hhase : hasEntry s.clients e.pid = true := by
      rw [hc]
      simp [hasEntry]
    have hevict : evictLruClient cf s = some { s with clients := rest } := by
      unfold evictLruClient
      rw [if_pos hcap, hc]
      show some (unloadPluginUnsafe cf s e.pid) = some { s with clients := rest }
      rw [unloadPluginUnsafe_eq, if_pos hhase, hc, hrem]
    simp only [loadPlugin, hhasF, Bool.false_eq_true, if_false, hevict]
    rcases hfail with h | h | h
    · rw [hty_false p h]
      simp
    · rw [h]
      simp
    · subst h
      simp

/-- Claim C6 witness: loading an unsupported `stdio` descriptor into a
full one-entry registry evicts the oldest entry and returns `false`; a
raising construction also returns `false`. -/
theorem claim_C6_witness :
    (("stdio" : String) ≠ "http")
    ∧ loadPlugin false false ⟨[⟨"a:q", ⟨"h", [], [], .num 60, false⟩, 0⟩], 1⟩
        ⟨"u", "p", "stdio", some "http://s", none, none, none⟩ 9
      = (false, ⟨[], 1⟩)
    ∧ (loadPlugin false true (RegistryState.init 1000)
        ⟨"u", "p", "http", some "http://s", none, none, none⟩ 9).1 = false :=
  ⟨by decide,
   claim_C6_failed_load_semantics.2.2.2 _ _ 9 false false _ [] (by decide) rfl
     (by decide) (by decide) (Or.inl (by decide)),
   claim_C6_failed_load_semantics.2.2.1 _ _ 9 false⟩

/-! ## Length and ordering lemmas for the LRU bound -/

theorem length_removeEntry_lt_of_mem {l : List RegEntry} {e : RegEntry} {k : String}
    (hmem : e ∈ l) (hk : e.pid = k) : (removeEntry l k).length < l.length := by
  induction l with
  | nil => cases hmem
  | cons a t ih =>
    rcases List.mem_cons.mp hmem with h | h
    · subst h
      simp only [removeEntry, List.filter_cons, hk, bne_self_eq_false,
        Bool.false_eq_true, if_false]
      exact Nat.lt_succ_of_le (List.length_filter_le _ _)
    · simp only [removeEntry, List.filter_cons]
      split
      · simp only [List.length_cons]
        exact Nat.succ_lt_succ (ih h)
      · exact Nat.lt_succ_of_lt (ih h)

theorem unloadPluginUnsafe_length_le (cf : Bool) (s : RegistryState) (pid : String) :
    (unloadPluginUnsafe cf s pid).clients.length ≤ s.clients.length := by
  rw [unloadPluginUnsafe_eq]
  split
  · exact List.length_filter_le _ _
  · exact Nat.le_refl _

theorem evictLruClient_length_le {cf : Bool} {s s2 : RegistryState}
    (h : evictLruClient cf s = some s2) : s2.clients.length ≤ s.clients.length :=
  (evictLruClient_sublist h).length_le

theorem evictLruClient_of_cons {cf : Bool} {s : RegistryState} {e : RegEntry}
    {rest : List RegEntry} (hcap : s.maxClients ≤ s.clients.length)
    (hc : s.clients = e :: rest) :
    evictLruClient cf s = some (unloadPluginUnsafe cf s e.pid) := by
  unfold evictLruClient
  rw [if_pos hcap, hc]

theorem evictLruClient_at_capacity {cf : Bool} {s s2 : RegistryState}
    (hcap : s.maxClients ≤ s.clients.length)
    (h : evictLruClient cf s = some s2) : s2.clients.length < s.clients.length := by
  cases hc : s.clients with
  | nil =>
    unfold evictLruClient at h
    rw [if_pos hcap, hc] at h
    cases h
  | cons e rest =>
    rw [evictLruClient_of_cons hcap hc] at h
    have h2 := Option.some.inj h
    subst h2
    rw [unloadPluginUnsafe_eq]
    have hhase : hasEntry s.clients e.pid = true := by
      rw [hc]
      simp [hasEntry]
    rw [if_pos hhase]
    have hmeme : e ∈ s.clients := by
      rw [hc]
      exact List.mem_cons_self e rest
    show (removeEntry s.clients e.pid).length < (e :: rest).length
    rw [← hc]
    exact length_removeEntry_lt_of_mem hmeme rfl

theorem odSetEntry_length (l : List RegEntry) (k : String) (c : HTTPMCPClient) (t : Nat) :
    (odSetEntry l k c t).length = if hasEntry l k then l.length else l.length + 1 := by
  unfold odSetEntry
  split <;> simp

theorem keysOf_map_update (l : List RegEntry) (k : String) (c : HTTPMCPClient) (t : Nat) :
    keysOf (l.map (fun e => if e.pid == k then ⟨k, c, t⟩ else e)) = keysOf l := by
  induction l with
  | nil => rfl
  | cons a tl ih =>
    simp only [List.map_cons, keysOf, List.map_cons] at ih ⊢
    by_cases ha : (a.pid == k) = true
    · rw [if_pos ha]
      rw [ih]
      have : a.pid = k := beq_iff_eq.mp ha
      rw [this]
    · rw [if_neg ha, ih]

theorem odSetEntry_keysOf_of_has {l : List RegEntry} {k : String}
    {c : HTTPMCPClient} {t : Nat} (h : hasEntry l k = true) :
    keysOf (odSetEntry l k c t) = keysOf l := by
  unfold odSetEntry
  rw [if_pos h]
  exact keysOf_map_update l k c t

theorem odSetEntry_length_of_has {l : List RegEntry} {k : String}
    {c : HTTPMCPClient} {t : Nat} (h : hasEntry l k = true) :
    (odSetEntry l k c t).length = l.length := by
  rw [odSetEntry_length, if_pos h]

theorem moveToEnd_length_le (l : List RegEntry) (k : String) :
    (moveToEnd l k).length ≤ l.length := by
  unfold moveToEnd
  cases hf : l.find? (fun e => e.pid == k) with
  | none => exact Nat.le_refl _
  | some e =>
    have hmem : e ∈ l := List.mem_of_find?_eq_some hf
    have hp : e.pid = k := by
      have h1 : (e.pid == k) = true := by simpa using List.find?_some hf
      exact beq_iff_eq.mp h1
    have hlt := length_removeEntry_lt_of_mem hmem hp
    simp only [List.length_append, List.length_cons, List.length_nil]
    omega

theorem touchClient_length_le (s : RegistryState) (pid : String) (now : Nat) :
    (touchClient s pid now).clients.length ≤ s.clients.length := by
  unfold touchClient
  cases hf : s.clients.find? (fun e => e.pid == pid) with
  | none => exact Nat.le_refl _
  | some e =>
    have hhase : hasEntry s.clients pid = true := by
      rw [hasEntry_eq_true_iff]
      have h1 : (e.pid == pid) = true := by simpa using List.find?_some hf
      exact List.mem_map.mpr
        ⟨e, List.mem_of_find?_eq_some hf, beq_iff_eq.mp h1⟩
    calc (moveToEnd (odSetEntry s.clients pid e.client now) pid).length
        ≤ (odSetEntry s.clients pid e.client now).length := moveToEnd_length_le _ _
      _ = s.clients.length := odSetEntry_length_of_has hhase

theorem moveToEnd_head_ne {l : List RegEntry} {k : String} (hlen : 2 ≤ l.length)
    (hnd : (keysOf l).Nodup) :
    ((moveToEnd l k).head?.map (fun e => e.pid)) ≠ some k := by
  unfold moveToEnd
  cases hf : l.find? (fun e => e.pid == k) with
  | none =>
    cases l with
    | nil => simp at hlen
    | cons a t =>
      have ha : ¬ ((fun e => e.pid == k) a = true) :=
        List.find?_eq_none.mp hf a (List.mem_cons_self a t)
      simp only [List.head?_cons, Option.map_some]
      intro hEq
      have := Option.some.inj hEq
      exact ha (by rw [beq_iff_eq]; exact this)
  | some e =>
    have hform : ∃ w ws, removeEntry l k = w :: ws := by
      cases hr : removeEntry l k with
      | cons w ws => exact ⟨w, ws, rfl⟩
      | nil =>
        exfalso
        have hall : ∀ a ∈ l, ¬ ((fun e => e.pid != k) a = true) := by
          have := hr
          unfold removeEntry at this
          exact List.filter_eq_nil_iff.mp this
        cases l with
        | nil => simp at hlen
        | cons a t =>
          cases t with
          | nil => simp at hlen
          | cons b t2 =>
            have ha : a.pid = k := by
              have h1 := hall a (List.mem_cons_self _ _)
              rw [bne_iff_ne] at h1
              exact not_not.mp h1
            have hb : b.pid = k := by
              have h1 := hall b (List.mem_cons_of_mem _ (List.mem_cons_self _ _))
              rw [bne_iff_ne] at h1
              exact not_not.mp h1
            simp only [keysOf, List.map_cons, ha, hb, List.nodup_cons,
              List.mem_cons] at hnd
            exact hnd.1 (Or.inl trivial)
    obtain ⟨w, ws, hr⟩ := hform
    rw [hr]
    have hw : (w.pid != k) = true := by
      have hmemw : w ∈ removeEntry l k := by
        rw [hr]
        exact List.mem_cons_self _ _
      unfold removeEntry at hmemw
      exact (List.mem_filter.mp hmemw).2
    simp only [List.cons_append, List.head?_cons, Option.map_some]
    intro hEq
    have := Option.some.inj hEq
    rw [bne_iff_ne] at hw
    exact hw this

/-- Claim C2: the entry count never exceeds the configured maximum
(`loadPlugin`, `getClient` and `unloadPlugin` all preserve the bound); at
or above capacity a successful load evicts exactly the single oldest
(least-recently-used) entry before inserting; and an entry touched via
`getClient` is moved to the most-recently-used position, so it is not the
next eviction victim (the head) relative to the entries not touched
since. -/
theorem claim_C2_lru_eviction :
    (∀ s p now cf cr, s.clients.length ≤ s.maxClients →
        ((loadPlugin cf cr s p now).2).clients.length ≤ s.maxClients)
    ∧ (∀ s userId pluginName now, s.clients.length ≤ s.maxClients →
        ((getClient s userId pluginName now).2).clients.length ≤ s.maxClients)
    ∧ (∀ s userId pluginName cf, s.clients.length ≤ s.maxClients →
        (unloadPlugin cf s userId pluginName).clients.length ≤ s.maxClients)
    ∧ (∀ s p now cf e rest, WF s → s.clients = e :: rest →
        pluginId p ∉ keysOf s.clients → s.maxClients ≤ s.clients.length →
        p.plugin_type = "http" → serverUrlMissing p = false →
        loadPlugin cf false s p now
          = (true, { s with clients := rest ++ [⟨pluginId p, loadedClient p, now⟩] }))
    ∧ (∀ s userId pluginName now, WF s → 2 ≤ s.clients.length →
        (userId ++ ":" ++ pluginName) ∈ keysOf s.clients →
        (((getClient s userId pluginName now).2).clients.head?.map (fun e => e.pid))
          ≠ some (userId ++ ":" ++ pluginName)) := by
  refine ⟨?_, ?_, ?_, ?_, ?_⟩
  · intro s p now cf cr hle
    simp only [loadPlugin]
    set s1 := (if hasEntry s.clients (pluginId p) = true
        then unloadPluginUnsafe cf s (pluginId p) else s) with hs1def
    have hlen1 : s1.clients.length ≤ s.clients.length := by
      rw [hs1def]
      split
      · exact unloadPluginUnsafe_length_le _ _ _
      · exact Nat.le_refl _
    cases hev : evictLruClient cf s1 with
    | none => exact le_trans hlen1 hle
    | some s2 =>
      have hle2 : s2.clients.length ≤ s1.clients.length := evictLruClient_length_le hev
      have hfin : s2.clients.length ≤ s.maxClients := le_trans hle2 (le_trans hlen1 hle)
      show (if (p.plugin_type == "http") = true then
              if serverUrlMissing p = true then (false, s2)
              else if cr = true then (false, s2)
              else (true, { s2 with
                clients := odSetEntry s2.clients (pluginId p) (loadedClient p) now })
            else (false, s2)).2.clients.length ≤ s.maxClients
      split
      · split
        · exact hfin
        · split
          · exact hfin
          · show (odSetEntry s2.clients (pluginId p) (loadedClient p) now).length
              ≤ s.maxClients
            rw [odSetEntry_length]
            split
            · exact hfin
            · rcases Nat.lt_or_ge s1.clients.length s.maxClients with hlt | hge
              · omega
              · have hmax1 : s1.maxClients = s.maxClients := by
                  rw [hs1def]
                  split
                  · rw [unloadPluginUnsafe_eq]
                    split <;> rfl
                  · rfl
                have hge1 : s1.maxClients ≤ s1.clients.length := by
                  rw [hmax1]
                  exact hge
                have hstrict := evictLruClient_at_capacity hge1 hev
                omega
      · exact hfin
  · intro s userId pluginName now hle
    simp only [getClient]
    cases hf : s.clients.find? (fun e => e.pid == userId ++ ":" ++ pluginName) with
    | none => exact hle
    | some e => exact le_trans (touchClient_length_le s _ now) hle
  · intro s userId pluginName cf hle
    unfold unloadPlugin
    exact le_trans (unloadPluginUnsafe_length_le _ _ _) hle
  · intro s p now cf e rest hWF hc hmem hcap hty hurl
    have hhasF : hasEntry s.clients (pluginId p) = false :=
      Bool.eq_false_iff.mpr (fun h => hmem (hasEntry_eq_true_iff.mp h))
    have hepid : e.pid ∉ keysOf rest := by
      have h2 : (keysOf s.clients).Nodup := hWF
      rw [hc] at h2
      simp only [keysOf, List.map_cons] at h2
      exact (List.nodup_cons.mp h2).1
    have hrem : removeEntry (e :: rest) e.pid = rest := by
      simp only [removeEntry, List.filter_cons, bne_self_eq_false, Bool.false_eq_true,
        if_false]
      exact removeEntry_eq_self hepid
    have hhase : hasEntry s.clients e.pid = true := by
      rw [hc]
      simp [hasEntry]
    have hevict : evictLruClient cf s = some { s with clients := rest } := by
      unfold evictLruClient
      rw [if_pos hcap, hc]
      show some (unloadPluginUnsafe cf s e.pid) = some { s with clients := rest }
      rw [unloadPluginUnsafe_eq, if_pos hhase, hc, hrem]
    have hrestF : hasEntry rest (pluginId p) = false := by
      rw [Bool.eq_false_iff]
      intro h
      apply hmem
      rw [hc]
      simp only [keysOf, List.map_cons]
      exact List.mem_cons_of_mem _ (hasEntry_eq_true_iff.mp h)
    have htyb : (p.plugin_type == "http") = true := beq_iff_eq.mpr hty
    simp only [loadPlugin, hhasF, Bool.false_eq_true, if_false, hevict, htyb, hurl,
      if_true]
    simp only [odSetEntry, hrestF, Bool.false_eq_true, if_false]
  · intro s userId pluginName now hWF hlen hmem
    cases hf : s.clients.find? (fun x => x.pid == userId ++ ":" ++ pluginName) with
    | none =>
      exfalso
      have hmem2 : userId ++ ":" ++ pluginName ∈ List.map (fun e => e.pid) s.clients := hmem
      obtain ⟨x, hx, hpx⟩ := List.mem_map.mp hmem2
      have hnone := List.find?_eq_none.mp hf x hx
      apply hnone
      simp [hpx]
    | some e =>
      simp only [getClient, hf]
      unfold touchClient
      rw [hf]
      have hhase : hasEntry s.clients (userId ++ ":" ++ pluginName) = true :=
        hasEntry_eq_true_iff.mpr hmem
      apply moveToEnd_head_ne
      · rw [odSetEntry_length_of_has hhase]
        exact hlen
      · rw [odSetEntry_keysOf_of_has hhase]
        exact hWF

/-- Claim C2 witness: the bound holds on an empty registry; a full one-entry
registry evicts exactly its oldest entry on a successful load; touching the
key `u:p` in a two-entry registry leaves the other key at the eviction
head. -/
theorem claim_C2_witness :
    (RegistryState.init 1000).clients.length ≤ (RegistryState.init 1000).maxClients
    ∧ ((loadPlugin false false (RegistryState.init 1000)
        ⟨"u", "p", "http", some "http://s", none, none, none⟩ 1).2).clients.length
        ≤ (RegistryState.init 1000).maxClients
    ∧ loadPlugin false false ⟨[⟨"a:q", ⟨"h", [], [], .num 60, false⟩, 0⟩], 1⟩
        ⟨"u", "p", "http", some "http://s", none, none, none⟩ 9
      = (true, ⟨[] ++ [⟨pluginId ⟨"u", "p", "http", some "http://s", none, none, none⟩,
          loadedClient ⟨"u", "p", "http", some "http://s", none, none, none⟩, 9⟩], 1⟩)
    ∧ ((getClient ⟨[⟨"a:q", ⟨"h", [], [], .num 60, false⟩, 0⟩,
          ⟨"u:p", ⟨"h", [], [], .num 60, false⟩, 0⟩], 10⟩ "u" "p" 5).2).clients.head?.map
        (fun e => e.pid) ≠ some ("u" ++ ":" ++ "p") :=
  ⟨Nat.zero_le _,
   claim_C2_lru_eviction.1 _ _ 1 false false (Nat.zero_le _),
   claim_C2_lru_eviction.2.2.2.1 _ _ 9 false _ [] (by decide) rfl (by decide)
     (by decide) rfl rfl,
   claim_C2_lru_eviction.2.2.2.2 _ "u" "p" 5 (by decide) (by decide) (by decide)⟩

/-! ## Load-sequence lemmas -/

theorem entriesFor_eq_nil {s : RegistryState} {k : String}
    (h : k ∉ keysOf s.clients) : entriesFor s k = [] := by
  unfold entriesFor
  rw [List.filter_eq_nil_iff]
  intro e he hbe
  exact h (List.mem_map.mpr ⟨e, he, beq_iff_eq.mp hbe⟩)

theorem WF_unloadPluginUnsafe (cf : Bool) (s : RegistryState) (pid : String)
    (h : WF s) : WF (unloadPluginUnsafe cf s pid) :=
  (keysOf_sublist (unloadPluginUnsafe_sublist cf s pid)).nodup h

theorem WF_evictLruClient {cf : Bool} {s s2 : RegistryState}
    (hev : evictLruClient cf s = some s2) (h : WF s) : WF s2 :=
  (keysOf_sublist (evictLruClient_sublist hev)).nodup h

theorem not_mem_keys_unloadPluginUnsafe (cf : Bool) (s : RegistryState) (pid : String)
    (h : hasEntry s.clients pid = true) :
    pid ∉ keysOf (unloadPluginUnsafe cf s pid).clients := by
  rw [unloadPluginUnsafe_eq, if_pos h]
  exact not_mem_keysOf_removeEntry _ _

theorem option_cases_eq {α : Type} (o : Option α) : o = none ∨ ∃ a, o = some a := by
  cases o
  · exact Or.inl rfl
  · exact Or.inr ⟨_, rfl⟩

/-- The state `load_plugin` holds after its unload-if-present step. -/
def loadUnloadStep (cf : Bool) (s : RegistryState) (p : MCPPlugin) : RegistryState :=
  if hasEntry s.clients (pluginId p) = true then unloadPluginUnsafe cf s (pluginId p)
  else s

theorem loadPlugin_eq_none {cf cr : Bool} {s : RegistryState} {p : MCPPlugin}
    {now : Nat} (hev : evictLruClient cf (loadUnloadStep cf s p) = none) :
    loadPlugin cf cr s p now = (false, loadUnloadStep cf s p) := by
  unfold loadUnloadStep at hev ⊢
  simp only [loadPlugin, hev]

theorem loadPlugin_eq_some {cf cr : Bool} {s s2 : RegistryState} {p : MCPPlugin}
    {now : Nat} (hev : evictLruClient cf (loadUnloadStep cf s p) = some s2) :
    loadPlugin cf cr s p now
      = (if (p.plugin_type == "http") = true then
           if serverUrlMissing p = true then (false, s2)
           else if cr = true then (false, s2)
           else (true, { s2 with
             clients := odSetEntry s2.clients (pluginId p) (loadedClient p) now })
         else (false, s2)) := by
  unfold loadUnloadStep at hev
  simp only [loadPlugin, hev]

theorem loadUnloadStep_WF (cf : Bool) (s : RegistryState) (p : MCPPlugin)
    (hWF : WF s) : WF (loadUnloadStep cf s p) := by
  unfold loadUnloadStep
  split
  · exact WF_unloadPluginUnsafe cf s (pluginId p) hWF
  · exact hWF

theorem loadUnloadStep_not_mem (cf : Bool) (s : RegistryState) (p : MCPPlugin) :
    pluginId p ∉ keysOf (loadUnloadStep cf s p).clients := by
  unfold loadUnloadStep
  split
  · rename_i h
    exact not_mem_keys_unloadPluginUnsafe cf s (pluginId p) h
  · rename_i h
    intro hm
    exact h (hasEntry_eq_true_iff.mpr hm)

/-- Behaviour of a single `load_plugin` call on the entries for its own key:
the key holds exactly the freshly constructed client after a successful
load and nothing after a failed one (an existing entry is unloaded first in
both cases), and well-formedness is preserved. -/
theorem loadPlugin_spec (cf cr : Bool) (s : RegistryState) (p : MCPPlugin) (now : Nat)
    (hWF : WF s) :
    entriesFor (loadPlugin cf cr s p now).2 (pluginId p)
      = (if (loadPlugin cf cr s p now).1
         then [⟨pluginId p, loadedClient p, now⟩] else [])
    ∧ WF (loadPlugin cf cr s p now).2 := by
  have hWF1 : WF (loadUnloadStep cf s p) := loadUnloadStep_WF cf s p hWF
  have hk1 : pluginId p ∉ keysOf (loadUnloadStep cf s p).clients :=
    loadUnloadStep_not_mem cf s p
  rcases option_cases_eq (evictLruClient cf (loadUnloadStep cf s p)) with hev | ⟨s2, hev⟩
  · rw [loadPlugin_eq_none hev]
    exact ⟨by simp [entriesFor_eq_nil hk1], hWF1⟩
  · rw [loadPlugin_eq_some hev]
    have hWF2 : WF s2 := WF_evictLruClient hev hWF1
    have hk2 : pluginId p ∉ keysOf s2.clients := fun hm =>
      hk1 ((keysOf_sublist (evictLruClient_sublist hev)).mem hm)
    have hhas2 : hasEntry s2.clients (pluginId p) = false :=
      Bool.eq_false_iff.mpr (fun h => hk2 (hasEntry_eq_true_iff.mp h))
    split
    · split
      · exact ⟨by simp [entriesFor_eq_nil hk2], hWF2⟩
      · split
        · exact ⟨by simp [entriesFor_eq_nil hk2], hWF2⟩
        · constructor
          · show entriesFor { s2 with
                clients := odSetEntry s2.clients (pluginId p) (loadedClient p) now }
                (pluginId p)
              = if true then _ else _
            rw [if_pos rfl]
            unfold entriesFor odSetEntry
            rw [hhas2]
            simp only [Bool.false_eq_true, if_false, List.filter_append]
            have h1 : List.filter (fun e => e.pid == pluginId p) s2.clients = [] := by
              have h2 := entriesFor_eq_nil (s := s2) hk2
              unfold entriesFor at h2
              exact h2
            rw [h1]
            simp
          · show WF { s2 with
                clients := odSetEntry s2.clients (pluginId p) (loadedClient p) now }
            unfold odSetEntry
            rw [hhas2]
            simp only [Bool.false_eq_true, if_false]
            show (keysOf (s2.clients ++ [⟨pluginId p, loadedClient p, now⟩])).Nodup
            unfold keysOf
            rw [List.map_append, List.nodup_append]
            refine ⟨hWF2, List.nodup_singleton _, ?_⟩
            intro a ha hb
            simp only [List.map_cons, List.map_nil, List.mem_cons,
              List.not_mem_nil] at hb
            rcases hb with hb | hb
            · subst hb
              exact hk2 ha
            · exact hb
    · exact ⟨by simp [entriesFor_eq_nil hk2], hWF2⟩

theorem runLoads_WF (calls : List LoadCall) (s : RegistryState) (h : WF s) :
    WF (runLoads s calls) := by
  induction calls generalizing s with
  | nil => exact h
  | cons c cs ih =>
    exact ih _ (loadPlugin_spec c.closeFails c.constructRaises s c.plugin c.now h).2

theorem entriesFor_length_le_one {s : RegistryState} {k : String} (h : WF s) :
    (entriesFor s k).length ≤ 1 := by
  unfold entriesFor
  have h1 : (List.filter (fun e => e.pid == k) s.clients).length
      = List.count k (keysOf s.clients) := by
    unfold keysOf
    rw [List.count_eq_countP, List.countP_map, List.countP_eq_length_filter]
    rfl
  rw [h1]
  exact List.nodup_iff_count_le_one.mp h k

/-- Claim C1 counterexample: load a key successfully, then load the same key
with an unsupported transport kind — the second call unloads the existing
entry before its validation fails, so afterwards no entry exists for the
key even though the sequence contains a successful load.  This refutes
"after the sequence exactly one entry exists whose client is the one from
the most recent successful load". -/
theorem claim_C1_counterexample :
    (loadPlugin false false (RegistryState.init 1000)
        ⟨"u", "p", "http", some "http://s", none, none, none⟩ 1).1 = true
    ∧ entriesFor (runLoads (RegistryState.init 1000)
        [⟨⟨"u", "p", "http", some "http://s", none, none, none⟩, 1, false, false⟩,
         ⟨⟨"u", "p", "stdio", some "http://s", none, none, none⟩, 2, false, false⟩])
        ("u" ++ ":" ++ "p") = [] :=
  ⟨rfl, rfl⟩

/-- Claim C1 (amended): at most one entry per key exists at any point of a
load sequence; and after the sequence, the key holds exactly the client
constructed by the final call when that call succeeded, and nothing when
the final call failed (a failed load first unloads any existing entry for
the key and does not insert). -/
theorem claim_C1_load_sequences :
    (∀ (s : RegistryState) (calls : List LoadCall) (k : String) (n : Nat), WF s →
        (entriesFor (runLoads s (calls.take n)) k).length ≤ 1)
    ∧ (∀ (s : RegistryState) (calls : List LoadCall) (c : LoadCall), WF s →
        entriesFor (runLoads s (calls ++ [c])) (pluginId c.plugin)
          = (if (loadPlugin c.closeFails c.constructRaises (runLoads s calls)
                  c.plugin c.now).1
             then [⟨pluginId c.plugin, loadedClient c.plugin, c.now⟩] else [])) := by
  constructor
  · intro s calls k n hWF
    exact entriesFor_length_le_one (runLoads_WF (calls.take n) s hWF)
  · intro s calls c hWF
    have hpre : WF (runLoads s calls) := runLoads_WF calls s hWF
    have hstep := (loadPlugin_spec c.closeFails c.constructRaises (runLoads s calls)
      c.plugin c.now hpre).1
    rw [runLoads, List.foldl_append]
    exact hstep

/-- Claim C1 witness: a single successful load on the empty registry leaves
exactly that load's entry; the at-most-one bound holds on a two-call
prefix. -/
theorem claim_C1_witness :
    WF (RegistryState.init 1000)
    ∧ (entriesFor (runLoads (RegistryState.init 1000)
        ([⟨⟨"u", "p", "http", some "http://s", none, none, none⟩, 1, false, false⟩,
          ⟨⟨"u", "p", "stdio", some "http://s", none, none, none⟩, 2, false, false⟩].take 2))
        ("u" ++ ":" ++ "p")).length ≤ 1
    ∧ entriesFor (runLoads (RegistryState.init 1000)
        ([] ++ [⟨⟨"u", "p", "http", some "http://s", none, none, none⟩, 1, false, false⟩]))
        (pluginId ⟨"u", "p", "http", some "http://s", none, none, none⟩)
      = (if (loadPlugin false false (runLoads (RegistryState.init 1000) [])
              ⟨"u", "p", "http", some "http://s", none, none, none⟩ 1).1
         then [⟨pluginId ⟨"u", "p", "http", some "http://s", none, none, none⟩,
               loadedClient ⟨"u", "p", "http", some "http://s", none, none, none⟩, 1⟩]
         else []) :=
  ⟨List.nodup_nil,
   claim_C1_load_sequences.1 (RegistryState.init 1000) _ ("u" ++ ":" ++ "p") 2
     List.nodup_nil,
   claim_C1_load_sequences.2 (RegistryState.init 1000) []
     ⟨⟨"u", "p", "http", some "http://s", none, none, none⟩, 1, false, false⟩
     List.nodup_nil⟩

end MCP
